import Mathlib

/-!
Verification of the SilkRoad trading framework (src/silkroad).

The Python data model is shallowly embedded: a pandas `DataFrame` becomes a
list of rows, a row an association list from column names to optional
rationals (`none` plays the role of `NaN` / a missing entry), and the
side-effecting loops become pure functions returning traces of events.
-/

namespace SilkRoad

/-- A cell of a pandas `DataFrame`: `none` models a missing value (`NaN`, or
an absent column when looked up — both satisfy `pd.isna`), `some q` a
numeric value. -/
abbrev Cell := Option ℚ

/-- A row of a `DataFrame`: an association list from column names to cells. -/
abbrev Row := List (String × Cell)

/-- A `DataFrame`: its rows in order. -/
abbrev Frame := List Row

/-- Reading `row.get(col)`: the cell stored under `col`, flattened so that an absent
column and a `NaN` entry both read as `none`. -/
def getCell (r : Row) (c : String) : Cell :=
  match r.find? (fun p => p.1 == c) with
  | some p => p.2
  | none => none

/-- Assignment `df[col] = v` restricted to one row: replace the cell under `col`, or
append the column if absent. -/
def setCell (r : Row) (c : String) (v : Cell) : Row :=
  if r.any (fun p => p.1 == c) then
    r.map (fun p => if p.1 == c then (c, v) else p)
  else r ++ [(c, v)]

/-- Projection `df[col]` as a column of cells. -/
def column (df : Frame) (c : String) : List Cell :=
  df.map (fun r => getCell r c)

/-- Assignment `df[col] = vals` of a whole column. -/
def setColumn (df : Frame) (c : String) (vals : List Cell) : Frame :=
  List.zipWith (fun r v => setCell r c v) df vals

/-- Mean of a window of cells: `NaN` as soon as the window contains a missing
value, matching `pandas` rolling mean with the default `min_periods`. -/
def meanCells (l : List Cell) : Cell :=
  if l.all (fun x => x.isSome) then
    some ((l.filterMap id).sum / l.length)
  else none

/-- The window of the `w`-rolling aggregate ending at index `i`. -/
def windowSlice (vals : List Cell) (w i : ℕ) : List Cell :=
  (vals.take (i + 1)).drop (i + 1 - w)

/-- Pandas `Series.rolling(w).mean()`: entry `i` is `NaN` while fewer than `w`
observations are available, else the mean of entries `i+1-w .. i`. -/
def rollingMean (w : ℕ) (vals : List Cell) : List Cell :=
  (List.range vals.length).map (fun i =>
    if i + 1 < w then none else meanCells (windowSlice vals w i))

/-- Cell subtraction (`NaN` propagates, as for pandas Series arithmetic). -/
def subCell : Cell → Cell → Cell
  | some a, some b => some (a - b)
  | _, _ => none

/-- Pointwise difference of two columns. -/
def colSub (a b : List Cell) : List Cell :=
  List.zipWith subCell a b

/-- A value stored in a signal's metadata dictionary. -/
inductive MetaVal where
  | num (q : ℚ)
  | str (s : String)
  | null
deriving DecidableEq, Repr

/-- A metadata dictionary, in insertion order. -/
abbrev Metadata := List (String × MetaVal)

/-- The dataclass `silkroad.strategy.base.Signal`. -/
structure Signal where
  side : String
  size : ℚ
  metadata : Option Metadata := none
deriving DecidableEq, Repr

/-- How a Python value is stored into metadata: `None`/`NaN` become `null`. -/
def metaOfCell : Cell → MetaVal
  | none => .null
  | some q => .num q

/-- The dataclass fields of `silkroad.strategy.momentum.MomentumStrategy`. -/
structure MomentumStrategy where
  name : String := "momentum"
  fast_window : ℕ := 20
  slow_window : ℕ := 50
  threshold : ℚ := 0
  order_size : ℚ := 1/10
deriving Repr

/-- Method `MomentumStrategy.prepare`: adds the `fast_ma`, `slow_ma` and `spread`
columns in sequence, mirroring the three assignment statements. -/
def MomentumStrategy.prepare (m : MomentumStrategy) (data : Frame) : Frame :=
  let d1 := setColumn data "fast_ma" (rollingMean m.fast_window (column data "close"))
  let d2 := setColumn d1 "slow_ma" (rollingMean m.slow_window (column d1 "close"))
  setColumn d2 "spread" (colSub (column d2 "fast_ma") (column d2 "slow_ma"))

/-- The body of `MomentumStrategy.generate_signal` once `latest` (the last
history row) is in hand. -/
def MomentumStrategy.signalOfRow (m : MomentumStrategy) (latest : Row) : Signal :=
  let spread := getCell latest "spread"
  let price : ℚ := (getCell latest "close").getD 0
  let metadata : Metadata :=
    [("spread", metaOfCell spread), ("price", .num price), ("strategy", .str m.name)]
  match spread with
  | none =>
      { side := "hold", size := 0,
        metadata := some (metadata ++ [("reason", .str "spread-not-computed")]) }
  | some s =>
      if s > m.threshold then
        { side := "buy", size := m.order_size, metadata := some metadata }
      else if s < -m.threshold then
        { side := "sell", size := m.order_size, metadata := some metadata }
      else
        { side := "hold", size := 0, metadata := some metadata }

/-- Method `MomentumStrategy.generate_signal`: reads `history.iloc[-1]`; `none`
models the `IndexError` on an empty history. -/
def MomentumStrategy.generate_signal (m : MomentumStrategy) (snap : Frame) :
    Option Signal :=
  (snap.getLast?).map (fun latest => m.signalOfRow latest)

/-- The dataclass `silkroad.risk.manager.RiskLimits` with its defaults. -/
structure RiskLimits where
  max_position_fraction : ℚ := 1/10
  max_drawdown : ℚ := 1/5
  stop_loss_pct : ℚ := 1/20
deriving Repr

/-- Constructor resolution of `RiskManager.__init__`: `limits or RiskLimits()`. -/
def RiskManager.resolve (limits : Option RiskLimits) : RiskLimits :=
  limits.getD {}

/-- Method `RiskManager.validate`. -/
def RiskManager.validate (limits : RiskLimits) (signal : Signal) : Bool :=
  if signal.size > limits.max_position_fraction then false else true

/-- One observable step of `PaperTradingEngine.run`: either the risk manager
blocked the signal (a notification is sent and the loop continues), or
`execute` was invoked with the given signal and price. -/
inductive PaperEvent where
  | blocked (signal : Signal)
  | executed (signal : Signal) (price : Cell)
deriving DecidableEq, Repr

/-- The signal carried by a paper-loop event. -/
def PaperEvent.signal : PaperEvent → Signal
  | .blocked s => s
  | .executed s _ => s

/-- The `for snapshot in stream` loop of `PaperTradingEngine.run`, generic in
the strategy (`gen`) and the risk verdict (`validate`); `none` models an
uncaught exception (`iloc[-1]` on an empty frame).  The executed price is
`float(snapshot.history().iloc[-1]["close"])`, read from the same snapshot. -/
def runPaperLoop (gen : Frame → Option Signal) (validate : Signal → Bool) :
    List Frame → Option (List PaperEvent)
  | [] => some []
  | snap :: rest =>
    match gen snap with
    | none => none
    | some sig =>
      if validate sig = false then
        (runPaperLoop gen validate rest).map (fun evs => .blocked sig :: evs)
      else
        match snap.getLast? with
        | none => none
        | some last =>
          (runPaperLoop gen validate rest).map
            (fun evs => .executed sig (getCell last "close") :: evs)

/-- The action `StrategyBridge.next` takes on one bar: nothing, or one call
to `order_target_percent` with the given target. -/
inductive BridgeAction where
  | skip
  | order (target : ℚ)
deriving DecidableEq, Repr

/-- Method `StrategyBridge.next` on one bar, generic in the strategy and the
optional risk manager; `truncated` is `history.loc[:current_dt]`. -/
def bridgeNext (gen : Frame → Option Signal) (rm : Option (Signal → Bool))
    (truncated : Frame) : Option BridgeAction :=
  if truncated.isEmpty then some .skip
  else
    match gen truncated with
    | none => none
    | some sig =>
      if (match rm with | some v => !(v sig) | none => false) then some .skip
      else if sig.side = "buy" then some (.order (min 1 sig.size))
      else if sig.side = "sell" then some (.order (-(min 1 sig.size)))
      else some .skip

/-- The feed `silkroad.data.static_feed.StaticFeed` after `__init__` resolved its
data (the synthetic default frame is a particular value of `data`). -/
structure StaticFeed where
  symbol : String
  interval : String
  lookback : ℕ
  data : Frame
deriving Repr

/-- Method `StaticFeed.load_history`: returns a copy of the stored frame (copying
is the identity in this pure embedding). -/
def StaticFeed.load_history (sf : StaticFeed) : Frame := sf.data

/-- Method `StaticFeed.stream`: yields a single snapshot built from a copy of the
stored frame. -/
def StaticFeed.stream (sf : StaticFeed) : List Frame := [sf.data]

/-- Method `PaperTradingEngine.run`: load the history, hand a copy of it to
`strategy.prepare` (whose in-place mutation affects only that discarded
copy), then run the streaming loop on the feed's own snapshots. -/
def PaperTradingEngine.run (prep : Frame → Frame) (gen : Frame → Option Signal)
    (validate : Signal → Bool) (loadHistory : Frame) (stream : List Frame) :
    Option (List PaperEvent) :=
  let _prepared := prep loadHistory
  runPaperLoop gen validate stream

/-- The paper run specialised to a `MomentumStrategy`, a
`RiskManager` and a `StaticFeed`, as wired by the application. -/
def paperRunStatic (m : MomentumStrategy) (limits : RiskLimits)
    (sf : StaticFeed) : Option (List PaperEvent) :=
  PaperTradingEngine.run (fun df => m.prepare df) (fun s => m.generate_signal s)
    (fun sig => RiskManager.validate limits sig) sf.load_history sf.stream

/-- A timestamped OHLCV row as held by `CCXTFeed` histories (the timestamp
is the frame's index). -/
structure TRow where
  ts : ℚ
  cells : Row
deriving DecidableEq, Repr

/-- Pandas `DataFrame.drop_duplicates()`: keep the first of any rows with
equal column values (the index does not participate). -/
def dropDuplicates : List TRow → List TRow
  | [] => []
  | r :: rest =>
      r :: dropDuplicates (rest.filter (fun q => !(q.cells == r.cells)))
termination_by l => l.length
decreasing_by
  simp only [List.length_cons]
  exact Nat.lt_succ_of_le (List.length_filter_le _ _)

/-- One update step of `CCXTFeed.stream`: concatenate the freshly fetched
rows, drop duplicate rows, keep the last `lookback` entries. -/
def ccxtIter (lookback : ℕ) (history fetched : List TRow) : List TRow :=
  let merged := dropDuplicates (history ++ fetched)
  merged.drop (merged.length - lookback)

/-- An observable event of `CCXTFeed.stream`: yielding a snapshot, or
`time.sleep(poll_interval)`. -/
inductive StreamEvent where
  | snap (history : List TRow)
  | sleep (seconds : ℚ)
deriving DecidableEq, Repr

/-- The trace of the `while True` loop of `CCXTFeed.stream`: each iteration
yields the current history, sleeps `poll_interval`, fetches (the `fetches`
list supplies the oracle responses of `fetch_ohlcv`) and updates the
history; the trace is cut right after a yield when the oracle runs dry. -/
def ccxtStream (pollInterval : ℚ) (lookback : ℕ) (history : List TRow) :
    List (List TRow) → List StreamEvent
  | [] => [.snap history]
  | f :: rest =>
      .snap history :: .sleep pollInterval ::
        ccxtStream pollInterval lookback (ccxtIter lookback history f) rest

/-- Dictionary lookup (`d.get(k)` / `REGISTRY.get(name)`). -/
def lookupKey {α : Type} (l : List (String × α)) (k : String) : Option α :=
  (l.find? (fun p => p.1 == k)).map (fun p => p.2)

/-- Python dict merge `{**base, **overrides}`: base keys in order with
overridden values, then the new keys of `overrides`. -/
def mergeDicts {α : Type} (base overrides : List (String × α)) :
    List (String × α) :=
  base.map (fun p => (p.1, (lookupKey overrides p.1).getD p.2)) ++
    overrides.filter (fun p => !(base.any (fun q => q.1 == p.1)))

/-- Errors raised by configuration loading and the builders
(`FileNotFoundError`, and the `ValueError`s of the build paths). -/
inductive ConfigError where
  | fileNotFound
  | invalidFormat
  | strategyNotRegistered (name : String)
  | executionNotRegistered (name : String)
  | unsupportedSource (source : String)
deriving DecidableEq, Repr

/-- Parameter dictionaries handed to the builders. -/
abbrev Params := List (String × MetaVal)

/-- The pydantic model `StrategyConfig`. -/
structure StrategyConfig where
  name : String
  parameters : Params := []
deriving Repr

/-- Method `StrategyConfig.build`: look the name up in `STRATEGY_REGISTRY`
(entries are constructors from parameters) and instantiate it on the merge
of the configured parameters and the overrides. -/
def StrategyConfig.build {S : Type} (registry : List (String × (Params → S)))
    (cfg : StrategyConfig) (overrides : Params) : Except ConfigError S :=
  match lookupKey registry cfg.name with
  | none => .error (.strategyNotRegistered cfg.name)
  | some cls => .ok (cls (mergeDicts cfg.parameters overrides))

/-- The pydantic model `ExecutionConfig`. -/
structure ExecutionConfig where
  name : String
  parameters : Params := []
deriving Repr

/-- Method `ExecutionConfig.build` against `EXECUTION_REGISTRY`. -/
def ExecutionConfig.build {E : Type} (registry : List (String × (Params → E)))
    (cfg : ExecutionConfig) (overrides : Params) : Except ConfigError E :=
  match lookupKey registry cfg.name with
  | none => .error (.executionNotRegistered cfg.name)
  | some cls => .ok (cls (mergeDicts cfg.parameters overrides))

/-- The feeds `build_data_feed` can construct, with the constructor
arguments it passes. -/
inductive DataFeed where
  | ccxt (exchange_id symbol interval : String) (lookback : ℕ) (poll_interval : ℚ)
  | static (symbol interval : String) (lookback : ℕ) (data : Option Frame)
deriving Repr

/-- Python `source.split(":", maxsplit=1)[1]` (empty when no colon occurs,
a case `build_data_feed` never reaches). -/
def afterFirstColon (s : String) : String :=
  match s.splitOn ":" with
  | [] => ""
  | _ :: rest => String.intercalate ":" rest

/-- Function `silkroad.data.factory.build_data_feed`; `poll_interval` and
`data` are the optional keyword arguments it inspects. -/
def build_data_feed (source symbol interval : String) (lookback : ℕ)
    (poll_interval : Option ℚ) (data : Option Frame) :
    Except ConfigError DataFeed :=
  if source.startsWith "ccxt:" then
    .ok (.ccxt (afterFirstColon source) symbol interval lookback
          (poll_interval.getD 5))
  else if source = "static" then
    .ok (.static symbol interval lookback data)
  else
    .error (.unsupportedSource source)

/-- The pydantic model `DataFeedConfig` with its defaults. -/
structure DataFeedConfig where
  source : String
  symbol : String
  interval : String := "1h"
  lookback : ℕ := 365
  poll_interval : ℚ := 15
  parameters : Params := []
deriving Repr

/-- The pydantic model `BacktestConfig` with its defaults. -/
structure BacktestConfig where
  enabled : Bool := true
  starting_cash : ℚ := 10000
  commission : ℚ := 1/1000
  slippage : ℚ := 0
deriving Repr

/-- The pydantic model `RiskConfig` with its defaults. -/
structure RiskConfig where
  max_position_size : ℚ := 1/10
  max_drawdown : ℚ := 1/5
  stop_loss_pct : ℚ := 1/20
deriving Repr

/-- The pydantic model `AppConfig` (the monitoring/analytics sections do not
matter to any claim and are elided). -/
structure AppConfig where
  environment : String := "development"
  data : DataFeedConfig
  strategy : StrategyConfig
  execution : ExecutionConfig
  backtest : Option BacktestConfig := none
  risk : Option RiskConfig := none
deriving Repr

/-- Function `load_config`: the filesystem and the pydantic validator are
external, so they enter as oracles — `fileExists` is `config_path.exists()`
and `validated` is the outcome of `AppConfig.model_validate` (`none` for a
`ValidationError`). -/
def load_config (fileExists : Bool) (validated : Option AppConfig) :
    Except ConfigError AppConfig :=
  if !fileExists then .error .fileNotFound
  else
    match validated with
    | some cfg => .ok cfg
    | none => .error .invalidFormat

/-- Runtime errors of the backtest entry points. -/
inductive RunError where
  | backtestingDisabled
  | engineNotConfigured
deriving DecidableEq, Repr

/-- The dataclass `silkroad.backtesting.results.BacktestResult` (timestamps
as strings; the optional pandas series fields are elided). -/
structure BacktestResult where
  strategy_name : String
  starting_cash : ℚ
  ending_value : ℚ
  total_return : ℚ
  total_trades : ℕ
  sharpe_ratio : Option ℚ
  run_id : String
  completed_at : String
  extra_metrics : List (String × ℚ)
deriving Repr

/-- What backtrader's `cerebro.run` and its analyzers report — external to
the repository, so an oracle input to `BacktestEngine.run`. -/
structure BrokerOutcome where
  ending_value : ℚ
  total_trades : ℕ
  sharpe_ratio : Option ℚ
  avg_daily_return : Option ℚ
deriving Repr

/-- Method `BacktestEngine.run`: raises when backtesting is disabled, else
assembles the `BacktestResult` from the broker outcome, with
`total_return = ending_value / starting_cash - 1`. -/
def BacktestEngine.run (strategyName : String) (config : BacktestConfig)
    (outcome : BrokerOutcome) (run_id completed_at : String) :
    Except RunError BacktestResult :=
  if !config.enabled then .error .backtestingDisabled
  else
    .ok { strategy_name := strategyName
          starting_cash := config.starting_cash
          ending_value := outcome.ending_value
          total_return := outcome.ending_value / config.starting_cash - 1
          total_trades := outcome.total_trades
          sharpe_ratio := outcome.sharpe_ratio
          run_id := run_id
          completed_at := completed_at
          extra_metrics :=
            match outcome.avg_daily_return with
            | some r => [("avg_daily_return", r)]
            | none => [] }

/-- The state `SilkRoadApp` holds about its backtest engine: the configured
strategy's name and the backtest section. -/
structure BacktestEngineState where
  strategyName : String
  config : BacktestConfig
deriving Repr

/-- Method `SilkRoadApp.run_backtest`: raises when no backtest engine is
configured, else delegates to `BacktestEngine.run`. -/
def SilkRoadApp.run_backtest (engine : Option BacktestEngineState)
    (outcome : BrokerOutcome) (run_id completed_at : String) :
    Except RunError BacktestResult :=
  match engine with
  | none => .error .engineNotConfigured
  | some e => BacktestEngine.run e.strategyName e.config outcome run_id completed_at

/-- The dataclass `analytics.logger.TradeRecord` (timestamps already in
their `isoformat` string form). -/
structure TradeRecord where
  timestamp : String
  symbol : String
  side : String
  quantity : ℚ
  price : ℚ
  strategy : String
  source : String
deriving DecidableEq, Repr

/-- The dataclass `analytics.logger.PerformanceRecord`. -/
structure PerformanceRecord where
  run_id : String
  timestamp : String
  metric : String
  value : ℚ
  metadata : Option (List (String × String)) := none
deriving DecidableEq, Repr

/-- A row of the `trades` table (the autoincrement id is the position). -/
structure TradeRow where
  timestamp : String
  symbol : String
  side : String
  quantity : ℚ
  price : ℚ
  strategy : String
  source : String
deriving DecidableEq, Repr

/-- A row of the `performance` table. -/
structure PerfRow where
  run_id : String
  timestamp : String
  metric : String
  value : ℚ
  metadata : Option String
deriving DecidableEq, Repr

/-- The database state: exactly the two tables `_init_schema` creates. -/
structure DBState where
  trades : List TradeRow
  performance : List PerfRow
deriving DecidableEq, Repr

/-- Method `AnalyticsStore._init_schema`: `CREATE TABLE IF NOT EXISTS`
leaves an existing database untouched and otherwise creates the two empty
tables. -/
def AnalyticsStore.init_schema (existing : Option DBState) : DBState :=
  existing.getD { trades := [], performance := [] }

/-- Serialization `json.dumps` on a string-valued dictionary. -/
def jsonDumps (m : List (String × String)) : String :=
  "\x7b" ++ String.intercalate ", "
    (m.map (fun p => "\"" ++ p.1 ++ "\": \"" ++ p.2 ++ "\"")) ++ "\x7d"

/-- Method `AnalyticsStore.log_trade`: one `INSERT INTO trades`. -/
def AnalyticsStore.log_trade (db : DBState) (r : TradeRecord) : DBState :=
  { db with trades := db.trades ++
      [{ timestamp := r.timestamp, symbol := r.symbol, side := r.side,
         quantity := r.quantity, price := r.price, strategy := r.strategy,
         source := r.source }] }

/-- Method `AnalyticsStore.log_performance`: serialize the metadata when the
dictionary is truthy, then one `INSERT INTO performance`. -/
def AnalyticsStore.log_performance (db : DBState) (r : PerformanceRecord) :
    DBState :=
  let metadata_json : Option String :=
    match r.metadata with
    | none => none
    | some m => if m.isEmpty then none else some (jsonDumps m)
  { db with performance := db.performance ++
      [{ run_id := r.run_id, timestamp := r.timestamp, metric := r.metric,
         value := r.value, metadata := metadata_json }] }

/-! ## Association-list frame lemmas -/

theorem map_find?_same (c : String) (v : Cell) :
    ∀ r : Row, r.any (fun p => p.1 == c) = true →
      getCell (r.map (fun p => if p.1 == c then (c, v) else p)) c = v := by
  intro r
  induction r with
  | nil => intro h; simp at h
  | cons p rest ih =>
      intro h
      by_cases hp : (p.1 == c) = true
      · simp [getCell, List.find?, hp]
      · have hp' : (p.1 == c) = false := by simpa using hp
        have h' : rest.any (fun p => p.1 == c) = true := by
          simpa [List.any_cons, hp'] using h
        simpa [getCell, List.find?, hp'] using ih h'

theorem find?_eq_none_of_any_false {c : String} {r : Row}
    (h : r.any (fun p => p.1 == c) = false) :
    r.find? (fun p => p.1 == c) = none := by
  rw [List.find?_eq_none]
  intro x hx hpx
  have htrue : r.any (fun p => p.1 == c) = true := List.any_eq_true.mpr ⟨x, hx, hpx⟩
  rw [h] at htrue
  exact Bool.noConfusion htrue

theorem getCell_setCell_same (r : Row) (c : String) (v : Cell) :
    getCell (setCell r c v) c = v := by
  unfold setCell
  split
  · exact map_find?_same c v r (by assumption)
  · rename_i h
    have hn : r.find? (fun p => p.1 == c) = none :=
      find?_eq_none_of_any_false (Bool.eq_false_iff.mpr h)
    unfold getCell
    rw [List.find?_append, hn, Option.none_or, List.find?_cons_of_pos _ (by simp)]

theorem map_find?_ne (c cq : String) (v : Cell) (hne : cq ≠ c) :
    ∀ r : Row,
      (r.map (fun p => if p.1 == c then (c, v) else p)).find? (fun p => p.1 == cq) =
        r.find? (fun p => p.1 == cq) := by
  intro r
  induction r with
  | nil => rfl
  | cons p rest ih =>
      simp only [List.map_cons]
      by_cases hp : (p.1 == c) = true
      · have hp1 : p.1 = c := by simpa using hp
        have hcq : ¬ c = cq := fun hh => hne hh.symm
        rw [if_pos hp]
        rw [List.find?_cons_of_neg _ (by simp [hcq])]
        rw [List.find?_cons_of_neg _ (by simp [hp1, hcq])]
        exact ih
      · rw [if_neg hp]
        by_cases hq : (p.1 == cq) = true
        · rw [List.find?_cons_of_pos _ (by exact hq)]
          rw [List.find?_cons_of_pos _ (by exact hq)]
        · rw [List.find?_cons_of_neg _ (by exact hq)]
          rw [List.find?_cons_of_neg _ (by exact hq)]
          exact ih

theorem getCell_setCell_ne (r : Row) (c cq : String) (v : Cell) (hne : cq ≠ c) :
    getCell (setCell r c v) cq = getCell r cq := by
  unfold setCell
  split
  · unfold getCell
    rw [map_find?_ne c cq v hne r]
  · have h1 : List.find? (fun p => p.1 == cq) [((c, v) : String × Cell)] = none := by
      rw [List.find?_cons_of_neg _ (by simpa using Ne.symm hne)]
      rfl
    unfold getCell
    rw [List.find?_append, h1, Option.or_none]

theorem column_length (df : Frame) (c : String) :
    (column df c).length = df.length := by
  simp [column]

theorem setColumn_length (df : Frame) (c : String) (vals : List Cell) :
    (setColumn df c vals).length = min df.length vals.length := by
  simp [setColumn]

theorem rollingMean_length (w : ℕ) (vals : List Cell) :
    (rollingMean w vals).length = vals.length := by
  simp [rollingMean]

theorem colSub_length (a b : List Cell) :
    (colSub a b).length = min a.length b.length := by
  simp [colSub]

theorem column_setColumn_same :
    ∀ (df : Frame) (vals : List Cell) (c : String), vals.length = df.length →
      column (setColumn df c vals) c = vals := by
  intro df
  induction df with
  | nil =>
      intro vals c h
      cases vals with
      | nil => rfl
      | cons v vs => simp at h
  | cons r rest ih =>
      intro vals c h
      cases vals with
      | nil => simp at h
      | cons v vs =>
          have hlen : vs.length = rest.length := by
            simpa using h
          simp [column, setColumn, getCell_setCell_same]
          exact ih vs c hlen

theorem column_setColumn_ne :
    ∀ (df : Frame) (vals : List Cell) (c cq : String), vals.length = df.length →
      cq ≠ c → column (setColumn df c vals) cq = column df cq := by
  intro df
  induction df with
  | nil =>
      intro vals c cq h hne
      cases vals with
      | nil => rfl
      | cons v vs => simp at h
  | cons r rest ih =>
      intro vals c cq h hne
      cases vals with
      | nil => simp at h
      | cons v vs =>
          have hlen : vs.length = rest.length := by
            simpa using h
          simp [column, setColumn, getCell_setCell_ne r c cq v hne]
          exact ih vs c cq hlen hne

theorem prepare_spread_column (m : MomentumStrategy) (data : Frame) :
    column (m.prepare data) "spread" =
      colSub (rollingMean m.fast_window (column data "close"))
             (rollingMean m.slow_window (column data "close")) := by
  simp only [MomentumStrategy.prepare]
  set cv := column data "close" with hcv
  set fv := rollingMean m.fast_window cv with hfv
  have hcvlen : cv.length = data.length := column_length data "close"
  have hfvlen : fv.length = data.length := by rw [hfv, rollingMean_length, hcvlen]
  set d1 := setColumn data "fast_ma" fv with hd1
  have hd1len : d1.length = data.length := by
    rw [hd1, setColumn_length, hfvlen, min_self]
  have hclose1 : column d1 "close" = cv := by
    rw [hd1, hcv]
    exact column_setColumn_ne data fv "fast_ma" "close" hfvlen (by decide)
  rw [hclose1]
  set sv := rollingMean m.slow_window cv with hsv
  have hsvlen : sv.length = data.length := by rw [hsv, rollingMean_length, hcvlen]
  set d2 := setColumn d1 "slow_ma" sv with hd2
  have hd2len : d2.length = data.length := by
    rw [hd2, setColumn_length, hd1len, hsvlen, min_self]
  have hfast2 : column d2 "fast_ma" = fv := by
    rw [hd2]
    rw [column_setColumn_ne d1 sv "slow_ma" "fast_ma" (by rw [hsvlen, hd1len]) (by decide)]
    rw [hd1]
    exact column_setColumn_same data fv "fast_ma" hfvlen
  have hslow2 : column d2 "slow_ma" = sv := by
    rw [hd2]
    exact column_setColumn_same d1 sv "slow_ma" (by rw [hsvlen, hd1len])
  rw [hfast2, hslow2]
  exact column_setColumn_same d2 (colSub fv sv) "spread"
    (by rw [colSub_length, hfvlen, hsvlen, min_self, hd2len])

/-- C1: for a last row with a defined spread, `generate_signal` returns buy
at `order_size` when the spread exceeds the threshold, else sell at
`order_size` when it is below the negated threshold, else hold at size 0;
for a missing/`NaN` spread it returns hold at size 0 with the metadata
reason `spread-not-computed`; and the `spread` column `prepare` computes is
the fast-window rolling mean of `close` minus the slow-window one. -/
theorem C1_momentum_signal_rule (m : MomentumStrategy) (latest : Row)
    (snap data : Frame) :
    (snap.getLast? = some latest →
        m.generate_signal snap = some (m.signalOfRow latest)) ∧
    (∀ s, getCell latest "spread" = some s →
        ((s > m.threshold →
            (m.signalOfRow latest).side = "buy" ∧
            (m.signalOfRow latest).size = m.order_size) ∧
         (¬ s > m.threshold → s < -m.threshold →
            (m.signalOfRow latest).side = "sell" ∧
            (m.signalOfRow latest).size = m.order_size) ∧
         (¬ s > m.threshold → ¬ s < -m.threshold →
            (m.signalOfRow latest).side = "hold" ∧
            (m.signalOfRow latest).size = 0))) ∧
    (getCell latest "spread" = none →
        (m.signalOfRow latest).side = "hold" ∧
        (m.signalOfRow latest).size = 0 ∧
        lookupKey ((m.signalOfRow latest).metadata.getD []) "reason" =
          some (.str "spread-not-computed")) ∧
    column (m.prepare data) "spread" =
      colSub (rollingMean m.fast_window (column data "close"))
             (rollingMean m.slow_window (column data "close")) := by
  refine ⟨?_, ?_, ?_, prepare_spread_column m data⟩
  · intro h
    simp [MomentumStrategy.generate_signal, h]
  · intro s hs
    refine ⟨?_, ?_, ?_⟩
    · intro hgt
      simp [MomentumStrategy.signalOfRow, hs, hgt]
    · intro hng hlt
      simp [MomentumStrategy.signalOfRow, hs, hng, hlt]
    · intro hng hnl
      simp [MomentumStrategy.signalOfRow, hs, hng, hnl]
  · intro h0
    simp [MomentumStrategy.signalOfRow, h0, lookupKey, List.find?]

/-- C2: `RiskManager.validate` is the single check
`size > max_position_fraction`: it returns `False` exactly when the size
strictly exceeds the limit (so `True` at the boundary), and limits agreeing
on `max_position_fraction` produce the same verdict regardless of
`max_drawdown` and `stop_loss_pct`. -/
theorem C2_validate_single_threshold (l1 l2 : RiskLimits) (s : Signal) :
    (RiskManager.validate l1 s = false ↔ s.size > l1.max_position_fraction) ∧
    (s.size = l1.max_position_fraction → RiskManager.validate l1 s = true) ∧
    (l1.max_position_fraction = l2.max_position_fraction →
      RiskManager.validate l1 s = RiskManager.validate l2 s) := by
  refine ⟨?_, ?_, ?_⟩
  · by_cases h : s.size > l1.max_position_fraction <;>
      simp [RiskManager.validate, h]
  · intro h
    simp [RiskManager.validate, h]
  · intro h
    simp [RiskManager.validate, h]

/-- C8: every momentum signal has side buy, sell or hold; hold signals have
size 0 and buy/sell signals size exactly `order_size`; and the metadata
dictionary always records the strategy name, the spread and the price. -/
theorem C8_signal_invariant (m : MomentumStrategy) (latest : Row) :
    ((m.signalOfRow latest).side = "buy" ∨ (m.signalOfRow latest).side = "sell" ∨
        (m.signalOfRow latest).side = "hold") ∧
    ((m.signalOfRow latest).side = "hold" → (m.signalOfRow latest).size = 0) ∧
    ((m.signalOfRow latest).side = "buy" ∨ (m.signalOfRow latest).side = "sell" →
        (m.signalOfRow latest).size = m.order_size) ∧
    (∃ md, (m.signalOfRow latest).metadata = some md ∧
        lookupKey md "strategy" = some (.str m.name) ∧
        lookupKey md "spread" = some (metaOfCell (getCell latest "spread")) ∧
        lookupKey md "price" = some (.num ((getCell latest "close").getD 0))) := by
  cases hs : getCell latest "spread" with
  | none =>
      simp only [MomentumStrategy.signalOfRow, hs]
      refine ⟨?_, ?_, ?_, ⟨_, rfl, rfl, rfl, rfl⟩⟩
      · simp
      · intro hh; trivial
      · rintro (hh | hh) <;> simp at hh
  | some s =>
      simp only [MomentumStrategy.signalOfRow, hs]
      by_cases hgt : s > m.threshold
      · rw [if_pos hgt]
        refine ⟨?_, ?_, ?_, ⟨_, rfl, rfl, rfl, rfl⟩⟩
        · simp
        · intro hh; simp at hh
        · intro hh; trivial
      · rw [if_neg hgt]
        by_cases hlt : s < -m.threshold
        · rw [if_pos hlt]
          refine ⟨?_, ?_, ?_, ⟨_, rfl, rfl, rfl, rfl⟩⟩
          · simp
          · intro hh; simp at hh
          · intro hh; trivial
        · rw [if_neg hlt]
          refine ⟨?_, ?_, ?_, ⟨_, rfl, rfl, rfl, rfl⟩⟩
          · simp
          · intro hh; trivial
          · rintro (hh | hh) <;> simp at hh

/-- C9: the verdict of `RiskManager.validate` depends only on the signal's
size — two signals of equal size receive the same verdict whatever their
side and metadata (the embedding is pure, so neither argument is mutated). -/
theorem C9_validate_size_only (limits : RiskLimits) (s1 s2 : Signal)
    (h : s1.size = s2.size) :
    RiskManager.validate limits s1 = RiskManager.validate limits s2 := by
  simp [RiskManager.validate, h]

/-! ## Paper-loop lemmas -/

theorem runPaperLoop_mem_executed (gen : Frame → Option Signal)
    (validate : Signal → Bool) :
    ∀ (snaps : List Frame) (evs : List PaperEvent),
      runPaperLoop gen validate snaps = some evs →
      ∀ sig price, PaperEvent.executed sig price ∈ evs → validate sig = true := by
  intro snaps
  induction snaps with
  | nil =>
      intro evs h sig price hmem
      simp only [runPaperLoop, Option.some.injEq] at h
      subst h
      simp at hmem
  | cons snap rest ih =>
      intro evs h sig price hmem
      cases hg : gen snap with
      | none => simp [runPaperLoop, hg] at h
      | some s =>
          simp only [runPaperLoop, hg] at h
          by_cases hv : validate s = false
          · rw [if_pos hv] at h
            rcases Option.map_eq_some'.mp h with ⟨evs', hrec, hevs⟩
            subst hevs
            rcases List.mem_cons.mp hmem with h1 | h1
            · exact PaperEvent.noConfusion h1
            · exact ih evs' hrec sig price h1
          · rw [if_neg hv] at h
            have hvt : validate s = true := by
              cases hb : validate s
              · exact absurd hb hv
              · rfl
            cases hl : snap.getLast? with
            | none =>
                simp only [hl] at h
                exact Option.noConfusion h
            | some last =>
                simp only [hl] at h
                rcases Option.map_eq_some'.mp h with ⟨evs', hrec, hevs⟩
                subst hevs
                rcases List.mem_cons.mp hmem with h1 | h1
                · injection h1 with hsig hpr
                  rw [hsig]
                  exact hvt
                · exact ih evs' hrec sig price h1

theorem runPaperLoop_length (gen : Frame → Option Signal)
    (validate : Signal → Bool) :
    ∀ (snaps : List Frame) (evs : List PaperEvent),
      runPaperLoop gen validate snaps = some evs → evs.length = snaps.length := by
  intro snaps
  induction snaps with
  | nil =>
      intro evs h
      simp only [runPaperLoop, Option.some.injEq] at h
      subst h
      rfl
  | cons snap rest ih =>
      intro evs h
      cases hg : gen snap with
      | none => simp [runPaperLoop, hg] at h
      | some s =>
          simp only [runPaperLoop, hg] at h
          by_cases hv : validate s = false
          · rw [if_pos hv] at h
            rcases Option.map_eq_some'.mp h with ⟨evs', hrec, hevs⟩
            subst hevs
            simp [ih evs' hrec]
          · rw [if_neg hv] at h
            cases hl : snap.getLast? with
            | none =>
                simp only [hl] at h
                exact Option.noConfusion h
            | some last =>
                simp only [hl] at h
                rcases Option.map_eq_some'.mp h with ⟨evs', hrec, hevs⟩
                subst hevs
                simp [ih evs' hrec]

theorem runPaperLoop_get (gen : Frame → Option Signal) (validate : Signal → Bool) :
    ∀ (snaps : List Frame) (evs : List PaperEvent),
      runPaperLoop gen validate snaps = some evs →
      ∀ (i : ℕ) (h1 : i < snaps.length) (h2 : i < evs.length),
        ∃ sig, gen (snaps.get ⟨i, h1⟩) = some sig ∧
          ((validate sig = false ∧ evs.get ⟨i, h2⟩ = .blocked sig) ∨
           (validate sig = true ∧ ∃ last, (snaps.get ⟨i, h1⟩).getLast? = some last ∧
              evs.get ⟨i, h2⟩ = .executed sig (getCell last "close"))) := by
  intro snaps
  induction snaps with
  | nil => intro evs h i h1 h2; simp at h1
  | cons snap rest ih =>
      intro evs h i h1 h2
      cases hg : gen snap with
      | none => simp [runPaperLoop, hg] at h
      | some s =>
          simp only [runPaperLoop, hg] at h
          by_cases hv : validate s = false
          · rw [if_pos hv] at h
            rcases Option.map_eq_some'.mp h with ⟨evs', hrec, hevs⟩
            subst hevs
            cases i with
            | zero => exact ⟨s, hg, Or.inl ⟨hv, rfl⟩⟩
            | succ n =>
                have h1' : n < rest.length := by simpa using h1
                have h2' : n < evs'.length := by simpa using h2
                simpa using ih evs' hrec n h1' h2'
          · rw [if_neg hv] at h
            have hvt : validate s = true := by
              cases hb : validate s
              · exact absurd hb hv
              · rfl
            cases hl : snap.getLast? with
            | none =>
                simp only [hl] at h
                exact Option.noConfusion h
            | some last =>
                simp only [hl] at h
                rcases Option.map_eq_some'.mp h with ⟨evs', hrec, hevs⟩
                subst hevs
                cases i with
                | zero => exact ⟨s, hg, Or.inr ⟨hvt, last, hl, rfl⟩⟩
                | succ n =>
                    have h1' : n < rest.length := by simpa using h1
                    have h2' : n < evs'.length := by simpa using h2
                    simpa using ih evs' hrec n h1' h2'

/-- C3: whenever the risk manager rejects a signal, `execute` is never
invoked for it (every executed event of the paper trace carries a
validated signal; trade logging happens only inside `execute`), the loop
goes on to the next snapshot (one event per snapshot), and in the backtest
bridge a rejected signal makes `next` return without placing an order. -/
theorem C3_risk_block_skips (gen : Frame → Option Signal)
    (validate : Signal → Bool) (snaps : List Frame) (evs : List PaperEvent)
    (h : runPaperLoop gen validate snaps = some evs) :
    (∀ sig price, PaperEvent.executed sig price ∈ evs → validate sig = true) ∧
    evs.length = snaps.length ∧
    (∀ (truncated : Frame) (sig : Signal), gen truncated = some sig →
      validate sig = false →
      bridgeNext gen (some validate) truncated = some .skip) := by
  refine ⟨runPaperLoop_mem_executed gen validate snaps evs h,
          runPaperLoop_length gen validate snaps evs h, ?_⟩
  intro truncated sig hg hv
  unfold bridgeNext
  by_cases he : truncated.isEmpty
  · rw [if_pos he]
  · rw [if_neg he]
    simp [hg, hv]

/-- C3 witness: a one-snapshot run whose oversized buy signal is blocked —
the trace records a blocked event and nothing is executed. -/
theorem C3_risk_block_skips_witness :
    ([PaperEvent.blocked
        { side := "buy",
          size := 2,
          metadata := some [("spread", .num 1), ("price", .num 100),
            ("strategy", .str "momentum")] }] : List PaperEvent).length =
      ([[[("close", some 100), ("spread", some 1)]]] : List Frame).length :=
  (C3_risk_block_skips
    (MomentumStrategy.generate_signal { order_size := 2 })
    (RiskManager.validate
      { max_position_fraction := 1, max_drawdown := 1, stop_loss_pct := 1 })
    [[[("close", some 100), ("spread", some 1)]]]
    [PaperEvent.blocked
      { side := "buy",
        size := 2,
        metadata := some [("spread", .num 1), ("price", .num 100),
          ("strategy", .str "momentum")] }]
    (by rfl)).2.1

/-- C7: the analytics store holds exactly the two tables `trades` and
`performance`; `log_trade` appends exactly one row to `trades` and leaves
every pre-existing row of both tables unchanged, `log_performance` appends
exactly one row to `performance` likewise, and `_init_schema` preserves an
existing database (creating the two empty tables only when none exists). -/
theorem C7_analytics_append_only (db : DBState) (t : TradeRecord)
    (p : PerformanceRecord) :
    ((AnalyticsStore.log_trade db t).trades.length = db.trades.length + 1) ∧
    ((AnalyticsStore.log_trade db t).trades.take db.trades.length = db.trades) ∧
    ((AnalyticsStore.log_trade db t).performance = db.performance) ∧
    ((AnalyticsStore.log_performance db p).performance.length =
        db.performance.length + 1) ∧
    ((AnalyticsStore.log_performance db p).performance.take db.performance.length =
        db.performance) ∧
    ((AnalyticsStore.log_performance db p).trades = db.trades) ∧
    AnalyticsStore.init_schema (some db) = db ∧
    AnalyticsStore.init_schema none = { trades := [], performance := [] } := by
  refine ⟨?_, ?_, rfl, ?_, ?_, rfl, rfl, rfl⟩
  · simp [AnalyticsStore.log_trade]
  · simp only [AnalyticsStore.log_trade]
    exact List.take_left _ _
  · simp [AnalyticsStore.log_performance]
  · simp only [AnalyticsStore.log_performance]
    exact List.take_left _ _

/-- C4: missing configuration or registry entries always raise — a missing
file gives `FileNotFoundError`, a config failing validation `ValueError`,
an unregistered strategy or execution-engine name `ValueError`, and a
source neither `static` nor `ccxt:`-prefixed `ValueError`; each case
returns an error, so no object is constructed. -/
theorem C4_missing_entries_raise {S E : Type} (validated : Option AppConfig)
    (sreg : List (String × (Params → S))) (ereg : List (String × (Params → E)))
    (scfg : StrategyConfig) (ecfg : ExecutionConfig) (ov1 ov2 : Params)
    (source symbol interval : String) (lookback : ℕ) (pi : Option ℚ)
    (data : Option Frame) :
    (load_config false validated = .error .fileNotFound) ∧
    (load_config true none = .error .invalidFormat) ∧
    (lookupKey sreg scfg.name = none →
      StrategyConfig.build sreg scfg ov1 =
        .error (.strategyNotRegistered scfg.name)) ∧
    (lookupKey ereg ecfg.name = none →
      ExecutionConfig.build ereg ecfg ov2 =
        .error (.executionNotRegistered ecfg.name)) ∧
    (source.startsWith "ccxt:" = false → source ≠ "static" →
      build_data_feed source symbol interval lookback pi data =
        .error (.unsupportedSource source)) := by
  refine ⟨rfl, rfl, ?_, ?_, ?_⟩
  · intro h
    simp [StrategyConfig.build, h]
  · intro h
    simp [ExecutionConfig.build, h]
  · intro h1 h2
    simp [build_data_feed, h1, h2]

/-- C5: an enabled, configured backtest yields a `BacktestResult` whose
`strategy_name` is the configured strategy's name, whose `starting_cash` is
the configured cash, and whose `total_return` is
`ending_value / starting_cash - 1`; with no engine configured
`run_backtest` raises, and a disabled backtest makes `BacktestEngine.run`
raise — in both cases no result is produced. -/
theorem C5_backtest_result_fields (e : BacktestEngineState)
    (outcome : BrokerOutcome) (run_id completed_at : String) :
    (e.config.enabled = true →
      ∃ r : BacktestResult,
        SilkRoadApp.run_backtest (some e) outcome run_id completed_at = .ok r ∧
        r.strategy_name = e.strategyName ∧
        r.starting_cash = e.config.starting_cash ∧
        r.ending_value = outcome.ending_value ∧
        r.total_return = r.ending_value / r.starting_cash - 1) ∧
    (SilkRoadApp.run_backtest none outcome run_id completed_at =
        .error .engineNotConfigured) ∧
    (e.config.enabled = false →
      BacktestEngine.run e.strategyName e.config outcome run_id completed_at =
        .error .backtestingDisabled) := by
  refine ⟨?_, rfl, ?_⟩
  · intro hen
    refine ⟨{ strategy_name := e.strategyName,
              starting_cash := e.config.starting_cash,
              ending_value := outcome.ending_value,
              total_return := outcome.ending_value / e.config.starting_cash - 1,
              total_trades := outcome.total_trades,
              sharpe_ratio := outcome.sharpe_ratio,
              run_id := run_id, completed_at := completed_at,
              extra_metrics :=
                match outcome.avg_daily_return with
                | some r => [("avg_daily_return", r)]
                | none => [] }, ?_, rfl, rfl, rfl, rfl⟩
    simp [SilkRoadApp.run_backtest, BacktestEngine.run, hen]
  · intro hdis
    simp [BacktestEngine.run, hdis]

/-- C9 witness: two concrete signals of size 1/10 differing in side and
metadata get the same verdict. -/
theorem C9_validate_size_only_witness :
    ({ side := "buy", size := 1/10, metadata := none } : Signal).size =
      ({ side := "sell", size := 1/10,
         metadata := some [("strategy", .str "momentum")] } : Signal).size ∧
    RiskManager.validate {} { side := "buy", size := 1/10, metadata := none } =
      RiskManager.validate {}
        { side := "sell", size := 1/10, metadata := some [("strategy", .str "momentum")] } :=
  ⟨rfl, C9_validate_size_only {} _ _ rfl⟩

/-! ## CCXT stream-trace lemmas -/

/-- Tag distinguishing snapshot yields from sleeps in a stream trace. -/
def StreamEvent.isSnap : StreamEvent → Bool
  | .snap _ => true
  | .sleep _ => false

theorem ccxtStream_sleep_fixed (p : ℚ) (lb : ℕ) :
    ∀ (fs : List (List TRow)) (h0 : List TRow) (t : ℚ),
      StreamEvent.sleep t ∈ ccxtStream p lb h0 fs → t = p := by
  intro fs
  induction fs with
  | nil =>
      intro h0 t hmem
      simp only [ccxtStream, List.mem_singleton] at hmem
      exact StreamEvent.noConfusion hmem
  | cons f rest ih =>
      intro h0 t hmem
      simp only [ccxtStream, List.mem_cons] at hmem
      rcases hmem with h | h | h
      · simp at h
      · simpa using h
      · exact ih _ t h

theorem ccxtStream_length (p : ℚ) (lb : ℕ) :
    ∀ (fs : List (List TRow)) (h0 : List TRow),
      (ccxtStream p lb h0 fs).length = 2 * fs.length + 1 := by
  intro fs
  induction fs with
  | nil => intro h0; rfl
  | cons f rest ih =>
      intro h0
      simp only [ccxtStream, List.length_cons, ih]
      omega

theorem ccxtStream_head (p : ℚ) (lb : ℕ) (fs : List (List TRow)) (h0 : List TRow) :
    ∃ tl, ccxtStream p lb h0 fs = .snap h0 :: tl := by
  cases fs
  · exact ⟨_, rfl⟩
  · exact ⟨_, rfl⟩

theorem ccxtStream_alternates (p : ℚ) (lb : ℕ) :
    ∀ (fs : List (List TRow)) (h0 : List TRow),
      List.Chain' (fun a b => a.isSnap ≠ b.isSnap) (ccxtStream p lb h0 fs) := by
  intro fs
  induction fs with
  | nil => intro h0; simp [ccxtStream]
  | cons f rest ih =>
      intro h0
      rcases ccxtStream_head p lb rest (ccxtIter lb h0 f) with ⟨tl, htl⟩
      simp only [ccxtStream]
      rw [htl, List.chain'_cons, List.chain'_cons]
      refine ⟨by simp [StreamEvent.isSnap], by simp [StreamEvent.isSnap], ?_⟩
      have h2 := ih (ccxtIter lb h0 f)
      rwa [htl] at h2

/-- C6: the live loop is one sequential poll-compute-execute cycle per
snapshot — the paper trace has exactly one event per snapshot, each event
comes from one `generate_signal` call on that snapshot, and an execution
uses the last `close` of that same snapshot — while the CCXT stream trace
strictly alternates snapshot yields with sleeps of exactly `poll_interval`
(sequentiality, i.e. non-overlap of iterations, is inherent to the linear
trace embedding). -/
theorem C6_sequential_cycle (gen : Frame → Option Signal)
    (validate : Signal → Bool) (snaps : List Frame) (evs : List PaperEvent)
    (p : ℚ) (lb : ℕ) (h0 : List TRow) (fs : List (List TRow))
    (h : runPaperLoop gen validate snaps = some evs) :
    evs.length = snaps.length ∧
    (∀ (i : ℕ) (h1 : i < snaps.length) (h2 : i < evs.length),
      ∃ sig, gen (snaps.get ⟨i, h1⟩) = some sig ∧
        ((validate sig = false ∧ evs.get ⟨i, h2⟩ = .blocked sig) ∨
         (validate sig = true ∧ ∃ last, (snaps.get ⟨i, h1⟩).getLast? = some last ∧
            evs.get ⟨i, h2⟩ = .executed sig (getCell last "close")))) ∧
    (∀ t : ℚ, StreamEvent.sleep t ∈ ccxtStream p lb h0 fs → t = p) ∧
    (ccxtStream p lb h0 fs).length = 2 * fs.length + 1 ∧
    List.Chain' (fun a b => a.isSnap ≠ b.isSnap) (ccxtStream p lb h0 fs) :=
  ⟨runPaperLoop_length gen validate snaps evs h,
   runPaperLoop_get gen validate snaps evs h,
   fun t => ccxtStream_sleep_fixed p lb fs h0 t,
   ccxtStream_length p lb fs h0,
   ccxtStream_alternates p lb fs h0⟩

/-- C6 witness: a one-snapshot paper run together with an empty-oracle CCXT
stream, at concrete inputs. -/
theorem C6_sequential_cycle_witness :
    ([PaperEvent.executed
        { side := "hold",
          size := 0,
          metadata := some [("spread", .null), ("price", .num 100),
            ("strategy", .str "momentum"),
            ("reason", .str "spread-not-computed")] }
        (some 100)] : List PaperEvent).length =
      ([[[("close", some 100)]]] : List Frame).length :=
  (C6_sequential_cycle
    (MomentumStrategy.generate_signal { order_size := 2 })
    (RiskManager.validate
      { max_position_fraction := 1, max_drawdown := 1, stop_loss_pct := 1 })
    [[[("close", some 100)]]]
    [PaperEvent.executed
      { side := "hold",
        size := 0,
        metadata := some [("spread", .null), ("price", .num 100),
          ("strategy", .str "momentum"),
          ("reason", .str "spread-not-computed")] }
      (some 100)]
    15 1 [] []
    (by rfl)).1

/-- C10 counterexample: for a static feed whose frame lacks a `spread`
column, the paper loop still invokes `execute` — the hold signal passes the
risk gate, so the run trace contains an executed event (with a trade
record logged by `execute` when analytics is attached), contradicting "no
trade is ever executed". -/
theorem C10_execute_called_counterexample :
    paperRunStatic { order_size := 2 }
        { max_position_fraction := 1, max_drawdown := 1, stop_loss_pct := 1 }
        { symbol := "BTC/USDT", interval := "1h", lookback := 1,
          data := [[("close", some 100)]] } =
      some [PaperEvent.executed
        { side := "hold",
          size := 0,
          metadata := some [("spread", .null), ("price", .num 100),
            ("strategy", .str "momentum"),
            ("reason", .str "spread-not-computed")] }
        (some 100)] := by rfl

/-- C10 amended: the prepared columns indeed never reach the paper loop
(`prepare` acts on a discarded copy, the static feed streams its own
frame), so on a spread-free static frame every signal generated in the
loop is hold with size 0 — but `execute` is still invoked for those hold
signals (logging a zero-size hold record); what never happens is a buy or
sell execution. -/
theorem C10_amended_hold_only (m : MomentumStrategy) (limits : RiskLimits)
    (sf : StaticFeed) (evs : List PaperEvent)
    (hns : ∀ r ∈ sf.data, getCell r "spread" = none)
    (h : paperRunStatic m limits sf = some evs) :
    ∀ ev ∈ evs, ev.signal.side = "hold" ∧ ev.signal.size = 0 ∧
      ∀ sig price, ev = PaperEvent.executed sig price →
        sig.side ≠ "buy" ∧ sig.side ≠ "sell" := by
  intro ev hmem
  simp only [paperRunStatic, PaperTradingEngine.run, StaticFeed.stream,
    StaticFeed.load_history] at h
  cases hg : m.generate_signal sf.data with
  | none => simp [runPaperLoop, hg] at h
  | some s =>
      rcases Option.map_eq_some'.mp hg with ⟨last, hl, hsig⟩
      have hmemlast : last ∈ sf.data := by
        rcases List.getLast?_eq_some_iff.mp hl with ⟨ys, hys⟩
        rw [hys]
        simp
      have hspread : getCell last "spread" = none := hns last hmemlast
      have hside : s.side = "hold" ∧ s.size = 0 := by
        rw [← hsig]
        simp [MomentumStrategy.signalOfRow, hspread]
      simp only [runPaperLoop, hg] at h
      by_cases hv : RiskManager.validate limits s = false
      · rw [if_pos hv] at h
        simp only [runPaperLoop, Option.map_some'] at h
        have hevs : evs = [PaperEvent.blocked s] := by simpa using h.symm
        subst hevs
        have hev : ev = PaperEvent.blocked s := by simpa using hmem
        subst hev
        refine ⟨hside.1, hside.2, ?_⟩
        intro sig price heq
        exact PaperEvent.noConfusion heq
      · rw [if_neg hv] at h
        simp only [hl] at h
        simp only [runPaperLoop, Option.map_some'] at h
        have hevs : evs = [PaperEvent.executed s (getCell last "close")] := by
          simpa using h.symm
        subst hevs
        have hev : ev = PaperEvent.executed s (getCell last "close") := by
          simpa using hmem
        subst hev
        refine ⟨hside.1, hside.2, ?_⟩
        intro sig price heq
        injection heq with hs1 hs2
        subst hs1
        constructor
        · rw [hside.1]
          decide
        · rw [hside.1]
          decide

/-- C10 amended witness: the concrete spread-free run, whose single event
is an executed hold of size 0 (so neither a buy nor a sell). -/
theorem C10_amended_hold_only_witness :
    (PaperEvent.executed
        { side := "hold",
          size := 0,
          metadata := some [("spread", .null), ("price", .num 100),
            ("strategy", .str "momentum"),
            ("reason", .str "spread-not-computed")] }
        (some 100)).signal.side = "hold" ∧
    (PaperEvent.executed
        { side := "hold",
          size := 0,
          metadata := some [("spread", .null), ("price", .num 100),
            ("strategy", .str "momentum"),
            ("reason", .str "spread-not-computed")] }
        (some 100)).signal.size = 0 ∧
    (∀ sig price,
      PaperEvent.executed
          { side := "hold",
            size := 0,
            metadata := some [("spread", .null), ("price", .num 100),
              ("strategy", .str "momentum"),
              ("reason", .str "spread-not-computed")] }
          (some 100) = PaperEvent.executed sig price →
        sig.side ≠ "buy" ∧ sig.side ≠ "sell") :=
  C10_amended_hold_only { order_size := 2 }
    { max_position_fraction := 1, max_drawdown := 1, stop_loss_pct := 1 }
    { symbol := "BTC/USDT", interval := "1h", lookback := 1,
      data := [[("close", some 100)]] }
    [PaperEvent.executed
      { side := "hold",
        size := 0,
        metadata := some [("spread", .null), ("price", .num 100),
          ("strategy", .str "momentum"),
          ("reason", .str "spread-not-computed")] }
      (some 100)]
    (by intro r hr; rw [List.mem_singleton] at hr; subst hr; rfl)
    (by rfl)
    (PaperEvent.executed
      { side := "hold",
        size := 0,
        metadata := some [("spread", .null), ("price", .num 100),
          ("strategy", .str "momentum"),
          ("reason", .str "spread-not-computed")] }
      (some 100))
    (List.mem_singleton.mpr rfl)

end SilkRoad
